import Mathlib

/-!
Shallow embedding of the clik metronome (src/metronome.js).

Times and JS numbers are modelled as rationals.  JS Math.round rounds half
towards positive infinity, the same convention as Mathlib's round.  The
only place where a JS-specific non-finite value can arise is the tap-tempo
division 60 / interval, where interval = 0 yields +Infinity; the JSNum
type models exactly the finite-or-positive-infinity values flowing through
Math.round, Math.min and Math.max there.
-/

namespace Clik

/-- JS number as produced by the tap-tempo path: finite, or +Infinity
(the JS value of 60 / 0). -/
inductive JSNum where
  | fin (q : ℚ)
  | posInf
deriving DecidableEq

/-- JS Math.round on a finite value: round half up, the same value as
Mathlib round (see jsRoundQ_eq_round); stated through Rat.floor so that it
evaluates in the kernel. -/
def jsRoundQ (q : ℚ) : ℚ := (((q + 1/2).floor : ℤ) : ℚ)

/-- JS division a / b for positive a: +Infinity when b = 0. -/
def jsDiv (a b : ℚ) : JSNum :=
  if b = 0 then JSNum.posInf else JSNum.fin (a / b)

/-- JS Math.round lifted: Math.round(Infinity) = Infinity. -/
def jsRoundN : JSNum → JSNum
  | JSNum.fin q => JSNum.fin (jsRoundQ q)
  | JSNum.posInf => JSNum.posInf

/-- JS Math.min(c, x): Math.min(c, Infinity) = c. -/
def jsMinC (c : ℚ) : JSNum → JSNum
  | JSNum.fin q => JSNum.fin (min c q)
  | JSNum.posInf => JSNum.fin c

/-- JS Math.max(c, x): Math.max(c, Infinity) = Infinity. -/
def jsMaxC (c : ℚ) : JSNum → JSNum
  | JSNum.fin q => JSNum.fin (max c q)
  | JSNum.posInf => JSNum.posInf

/-- Extract the finite value (the clamp below always produces one). -/
def jsVal : JSNum → ℚ
  | JSNum.fin q => q
  | JSNum.posInf => 0

/-- Math.max(30, Math.min(300, Math.round(newBpm))) from handleTapTempo. -/
def tapClampBpm (x : JSNum) : ℚ := jsVal (jsMaxC 30 (jsMinC 300 (jsRoundN x)))

/-- The metronome state object of src/metronome.js.  The interval timer
handle is an Option: none models the JS null. -/
structure State where
  bpm : ℚ
  isRunning : Bool
  randomMuteProbability : ℚ
  lastTapTime : Option ℚ
  tapCount : ℕ
  intervalId : Option ℕ
  nextNoteTime : ℚ
  scheduleAheadTime : ℚ
  lookahead : ℚ
deriving DecidableEq

/-- The initial state literal of src/metronome.js lines 2-12. -/
def initState : State :=
  { bpm := 40, isRunning := false, randomMuteProbability := 0,
    lastTapTime := none, tapCount := 0, intervalId := none,
    nextNoteTime := 0, scheduleAheadTime := 1/10, lookahead := 10 }

/-- Number of beats falling strictly before the limit: the iteration count
of the scheduler() while loop, for positive bpm. -/
def beatCount (bpm limit t : ℚ) : ℕ := (⌈(limit - t) * (bpm / 60)⌉).toNat

/-- The timestamps passed to playClick by one run of scheduler():
while (nextNoteTime < now + scheduleAheadTime) emit nextNoteTime and
advance it by 60 / bpm.  The source loop terminates only for positive bpm
(the program keeps bpm in [1,300]); for nonpositive bpm this model emits
nothing, a case unreachable in program states. -/
def schedulerTimes (bpm limit t : ℚ) : List ℚ :=
  if h : 0 < bpm ∧ t < limit then t :: schedulerTimes bpm limit (t + 60 / bpm)
  else []
termination_by beatCount bpm limit t
decreasing_by
  obtain ⟨hb, ht⟩ := h
  have hbne : bpm ≠ 0 := ne_of_gt hb
  have heq : (limit - (t + 60 / bpm)) * (bpm / 60) = (limit - t) * (bpm / 60) - 1 := by
    field_simp
    ring
  have hpos : (0 : ℚ) < (limit - t) * (bpm / 60) := by
    have h1 : (0 : ℚ) < limit - t := by linarith
    positivity
  have hc : 0 < ⌈(limit - t) * (bpm / 60)⌉ := Int.ceil_pos.mpr hpos
  simp only [beatCount, heq, Int.ceil_sub_one]
  omega

/-- The final value of state.nextNoteTime after one run of scheduler(). -/
def schedulerFinal (bpm limit t : ℚ) : ℚ :=
  if h : 0 < bpm ∧ t < limit then schedulerFinal bpm limit (t + 60 / bpm)
  else t
termination_by beatCount bpm limit t
decreasing_by
  obtain ⟨hb, ht⟩ := h
  have hbne : bpm ≠ 0 := ne_of_gt hb
  have heq : (limit - (t + 60 / bpm)) * (bpm / 60) = (limit - t) * (bpm / 60) - 1 := by
    field_simp
    ring
  have hpos : (0 : ℚ) < (limit - t) * (bpm / 60) := by
    have h1 : (0 : ℚ) < limit - t := by linarith
    positivity
  have hc : 0 < ⌈(limit - t) * (bpm / 60)⌉ := Int.ceil_pos.mpr hpos
  simp only [beatCount, heq, Int.ceil_sub_one]
  omega

/-- scheduler() run against an audio clock reading now: the updated state
together with the list of playClick timestamps. -/
def scheduler (now : ℚ) (s : State) : State × List ℚ :=
  ({ s with nextNoteTime :=
       schedulerFinal s.bpm (now + s.scheduleAheadTime) s.nextNoteTime },
   schedulerTimes s.bpm (now + s.scheduleAheadTime) s.nextNoteTime)

/-- timerLoop(): if (state.isRunning) scheduler(). -/
def timerLoop (now : ℚ) (s : State) : State × List ℚ :=
  if s.isRunning then scheduler now s else (s, [])

/-- The Web Audio context as seen by the metronome code. -/
structure AudioCtx where
  currentTime : ℚ
  suspended : Bool
deriving DecidableEq

/-- The audio environment: audioContext (null when the Web Audio API is
unavailable) and the audio-ready flag of src/metronome.js. -/
structure Env where
  audioContext : Option AudioCtx
  audioReady : Bool
deriving DecidableEq

/-- scheduler() evaluated against the environment: its loop condition reads
audioContext.currentTime, which throws a TypeError when audioContext is
null, before any state mutation. -/
def schedulerE (env : Env) (s : State) : Except String (State × List ℚ) :=
  match env.audioContext with
  | none => Except.error "TypeError: cannot read currentTime of null"
  | some c => Except.ok (scheduler c.currentTime s)

/-- timerLoop() evaluated against the environment. -/
def timerLoopE (env : Env) (s : State) : Except String (State × List ℚ) :=
  if s.isRunning then schedulerE env s else Except.ok (s, [])

/-- startMetronome(): marks running, sets nextNoteTime = currentTime + 0.05
when an audio context exists, and installs the interval timer (the handle
is modelled as 1, a truthy JS timer id). -/
def startMetronome (audioNow : Option ℚ) (s : State) : State :=
  { s with isRunning := true,
           nextNoteTime :=
             match audioNow with
             | some now => now + 1/20
             | none => s.nextNoteTime,
           intervalId := some 1 }

/-- start(): no-op when already running, otherwise startMetronome() (the
iOS deferral and suspended-resume branches of the source either call
startMetronome() or return with the state unchanged). -/
def start (audioNow : Option ℚ) (s : State) : State :=
  if s.isRunning then s else startMetronome audioNow s

/-- stop(): clears isRunning, and cancels and nulls the interval timer when
one is installed (JS truthiness of a timer handle is modelled by isSome). -/
def stop (s : State) : State :=
  if s.intervalId.isSome then { s with isRunning := false, intervalId := none }
  else { s with isRunning := false }

/-- handleTapTempo(): returns at once when not running; otherwise
increments tapCount, stores the anchor on the first tap, and on the second
computes bpm = Math.max(30, Math.min(300, Math.round(60 / interval))) with
interval = now - lastTapTime and resets tapCount (a JS null anchor coerces
to 0 in the subtraction, modelled by getD 0). -/
def handleTapTempo (s : State) (now : ℚ) : State :=
  if !s.isRunning then s
  else
    let tc := s.tapCount + 1
    if tc = 1 then { s with tapCount := tc, lastTapTime := some now }
    else if tc = 2 then
      { s with bpm := tapClampBpm (jsDiv 60 (now - s.lastTapTime.getD 0)),
               tapCount := 0 }
    else { s with tapCount := tc }

/-- KeyH handler: if running, bpm = Math.max(1, Math.round(bpm / 2)). -/
def handleKeyH (s : State) : State :=
  if s.isRunning then { s with bpm := max 1 (jsRoundQ (s.bpm / 2)) } else s

/-- KeyD handler: if running, bpm = Math.min(300, Math.round(bpm * 2)). -/
def handleKeyD (s : State) : State :=
  if s.isRunning then { s with bpm := min 300 (jsRoundQ (s.bpm * 2)) } else s

/-- applyRandomMuting(): the parseInt result is modelled as an Option Int,
none standing for NaN; the percentage is stored only when it lies in
[0,100], otherwise the state is untouched. -/
def applyRandomMuting (s : State) (input : Option ℤ) : State :=
  match input with
  | none => s
  | some percent =>
    if 0 ≤ percent ∧ percent ≤ 100 then
      { s with randomMuteProbability := (percent : ℚ) / 100 }
    else s

/-- calculateBpmFromInterval(intervalMs) = Math.round(60000 / intervalMs). -/
def calculateBpmFromInterval (intervalMs : ℚ) : ℚ :=
  jsRoundQ (60000 / intervalMs)

/-- The user-visible operations driving the metronome state machine. -/
inductive Op where
  | opStart (audioNow : Option ℚ)
  | opStop
  | opTap (now : ℚ)
  | opHalf
  | opDouble
  | opSetMute (input : Option ℤ)
  | opTick (audioNow : Option ℚ)
deriving DecidableEq

/-- One step of the state machine.  A tick with a null audio context throws
inside the loop condition before any mutation (see schedulerE), leaving the
state unchanged. -/
def applyOp (s : State) (o : Op) : State :=
  match o with
  | Op.opStart a => start a s
  | Op.opStop => stop s
  | Op.opTap now => handleTapTempo s now
  | Op.opHalf => handleKeyH s
  | Op.opDouble => handleKeyD s
  | Op.opSetMute v => applyRandomMuting s v
  | Op.opTick none => s
  | Op.opTick (some now) => (timerLoop now s).1

/-- Run a sequence of operations from a state. -/
def run (s : State) (ops : List Op) : State := ops.foldl applyOp s

/-- The state invariant that the code maintains: bpm in [1,300], mute
probability in [0,1], the tap anchor present whenever tapCount = 1, and
tapCount never exceeding 1. -/
def Inv (s : State) : Prop :=
  1 ≤ s.bpm ∧ s.bpm ≤ 300 ∧
  0 ≤ s.randomMuteProbability ∧ s.randomMuteProbability ≤ 1 ∧
  (s.tapCount = 1 → s.lastTapTime ≠ none) ∧ s.tapCount ≤ 1

theorem beatCount_pos (bpm limit t : ℚ) (hb : 0 < bpm) (ht : t < limit) :
    0 < beatCount bpm limit t := by
  have hpos : (0 : ℚ) < (limit - t) * (bpm / 60) := by
    have h1 : (0 : ℚ) < limit - t := by linarith
    positivity
  have hc : 0 < ⌈(limit - t) * (bpm / 60)⌉ := Int.ceil_pos.mpr hpos
  simp only [beatCount]
  omega

theorem beatCount_eq_zero (bpm limit t : ℚ) (hb : 0 < bpm) (ht : ¬ t < limit) :
    beatCount bpm limit t = 0 := by
  have h1 : limit - t ≤ 0 := by linarith [not_lt.mp ht]
  have h2 : (0 : ℚ) ≤ bpm / 60 := by positivity
  have h3 : (limit - t) * (bpm / 60) ≤ 0 := by
    nlinarith [mul_nonneg (neg_nonneg.mpr h1) h2]
  have hc : ⌈(limit - t) * (bpm / 60)⌉ ≤ 0 := by
    exact_mod_cast Int.ceil_le.mpr (by exact_mod_cast h3)
  simp only [beatCount]
  omega

theorem beatCount_step (bpm limit t : ℚ) (hb : 0 < bpm) (ht : t < limit) :
    beatCount bpm limit (t + 60 / bpm) + 1 = beatCount bpm limit t := by
  have hbne : bpm ≠ 0 := ne_of_gt hb
  have heq : (limit - (t + 60 / bpm)) * (bpm / 60) = (limit - t) * (bpm / 60) - 1 := by
    field_simp
    ring
  have hpos : (0 : ℚ) < (limit - t) * (bpm / 60) := by
    have h1 : (0 : ℚ) < limit - t := by linarith
    positivity
  have hc : 0 < ⌈(limit - t) * (bpm / 60)⌉ := Int.ceil_pos.mpr hpos
  simp only [beatCount, heq, Int.ceil_sub_one]
  omega

theorem schedulerTimes_closed (bpm limit : ℚ) (hb : 0 < bpm) :
    ∀ (n : ℕ) (t : ℚ), beatCount bpm limit t = n →
      schedulerTimes bpm limit t =
        (List.range n).map (fun i : ℕ => t + (i : ℚ) * (60 / bpm)) := by
  intro n
  induction n with
  | zero =>
    intro t hn
    have ht : ¬ t < limit := by
      intro hlt
      have := beatCount_pos bpm limit t hb hlt
      omega
    rw [schedulerTimes, dif_neg (by exact fun hh => ht hh.2)]
    simp
  | succ k ih =>
    intro t hn
    have ht : t < limit := by
      by_contra hc
      rw [beatCount_eq_zero bpm limit t hb hc] at hn
      omega
    have hk : beatCount bpm limit (t + 60 / bpm) = k := by
      have := beatCount_step bpm limit t hb ht
      omega
    rw [schedulerTimes, dif_pos ⟨hb, ht⟩, ih (t + 60 / bpm) hk]
    rw [List.range_succ_eq_map, List.map_cons, List.map_map]
    congr 1
    · simp
    · apply List.map_congr_left
      intro i _
      simp only [Function.comp]
      push_cast
      ring

theorem schedulerFinal_closed (bpm limit : ℚ) (hb : 0 < bpm) :
    ∀ (n : ℕ) (t : ℚ), beatCount bpm limit t = n →
      schedulerFinal bpm limit t = t + (n : ℚ) * (60 / bpm) := by
  intro n
  induction n with
  | zero =>
    intro t hn
    have ht : ¬ t < limit := by
      intro hlt
      have := beatCount_pos bpm limit t hb hlt
      omega
    rw [schedulerFinal, dif_neg (by exact fun hh => ht hh.2)]
    simp
  | succ k ih =>
    intro t hn
    have ht : t < limit := by
      by_contra hc
      rw [beatCount_eq_zero bpm limit t hb hc] at hn
      omega
    have hk : beatCount bpm limit (t + 60 / bpm) = k := by
      have := beatCount_step bpm limit t hb ht
      omega
    rw [schedulerFinal, dif_pos ⟨hb, ht⟩, ih (t + 60 / bpm) hk]
    push_cast
    ring

theorem jsRoundQ_eq_round (q : ℚ) : jsRoundQ q = ((round q : ℤ) : ℚ) := by
  have h : (q + 1/2).floor = ⌊q + 1/2⌋ := by
    rw [Rat.floor_def', Rat.floor_def]
  rw [jsRoundQ, round_eq, h]

theorem jsRoundQ_eq_coe (q : ℚ) (z : ℤ) (h1 : (z : ℚ) ≤ q + 1/2)
    (h2 : q + 1/2 < z + 1) : jsRoundQ q = (z : ℚ) := by
  have h0 : (q + 1/2).floor = ⌊q + 1/2⌋ := by
    rw [Rat.floor_def', Rat.floor_def]
  have h : ⌊q + 1/2⌋ = z := Int.floor_eq_iff.mpr ⟨h1, by linarith⟩
  rw [jsRoundQ, h0, h]

/-- C5: calculateBpmFromInterval(intervalMs) equals round(60000/intervalMs)
for every positive integer interval; in particular 500 gives 120, 1000
gives 60, 250 gives 240, 333 gives 180, 1 gives 60000 and 60000 gives 1. -/
theorem clik_C5_calculateBpm (n : ℕ) (h : 0 < n) :
    calculateBpmFromInterval (n : ℚ) = ((round ((60000 : ℚ) / (n : ℚ)) : ℤ) : ℚ) ∧
    calculateBpmFromInterval 500 = 120 ∧
    calculateBpmFromInterval 1000 = 60 ∧
    calculateBpmFromInterval 250 = 240 ∧
    calculateBpmFromInterval 333 = 180 ∧
    calculateBpmFromInterval 1 = 60000 ∧
    calculateBpmFromInterval 60000 = 1 := by
  refine ⟨jsRoundQ_eq_round _, ?_, ?_, ?_, ?_, ?_, ?_⟩
  · rw [calculateBpmFromInterval,
      jsRoundQ_eq_coe ((60000 : ℚ)/500) 120 (by norm_num) (by norm_num)]
    norm_num
  · rw [calculateBpmFromInterval,
      jsRoundQ_eq_coe ((60000 : ℚ)/1000) 60 (by norm_num) (by norm_num)]
    norm_num
  · rw [calculateBpmFromInterval,
      jsRoundQ_eq_coe ((60000 : ℚ)/250) 240 (by norm_num) (by norm_num)]
    norm_num
  · rw [calculateBpmFromInterval,
      jsRoundQ_eq_coe ((60000 : ℚ)/333) 180 (by norm_num) (by norm_num)]
    norm_num
  · rw [calculateBpmFromInterval,
      jsRoundQ_eq_coe ((60000 : ℚ)/1) 60000 (by norm_num) (by norm_num)]
    norm_num
  · rw [calculateBpmFromInterval,
      jsRoundQ_eq_coe ((60000 : ℚ)/60000) 1 (by norm_num) (by norm_num)]
    norm_num

/-- Witness for C5 at interval 500. -/
theorem clik_C5_witness :
    (0 : ℕ) < 500 ∧
    calculateBpmFromInterval ((500 : ℕ) : ℚ) =
      ((round ((60000 : ℚ) / ((500 : ℕ) : ℚ)) : ℤ) : ℚ) :=
  ⟨by decide, (clik_C5_calculateBpm 500 (by decide)).1⟩

/-- C10: while not running, a tap event is a complete no-op: the whole
state is returned unchanged. -/
theorem clik_C10_tap_noop_when_stopped (s : State) (now : ℚ)
    (h : s.isRunning = false) : handleTapTempo s now = s := by
  simp [handleTapTempo, h]

/-- Witness for C10 at the initial (stopped) state. -/
theorem clik_C10_witness : handleTapTempo initState 5 = initState :=
  clik_C10_tap_noop_when_stopped initState 5 rfl

/-- C8: a parsed integer percent in [0,100] sets the mute probability to
percent/100; a non-numeric (NaN) or out-of-range input leaves the state
untouched. -/
theorem clik_C8_set_mute (s : State) (p : ℤ) :
    (0 ≤ p → p ≤ 100 →
      applyRandomMuting s (some p) =
        { s with randomMuteProbability := (p : ℚ) / 100 }) ∧
    (p < 0 ∨ 100 < p → applyRandomMuting s (some p) = s) ∧
    applyRandomMuting s none = s := by
  refine ⟨?_, ?_, rfl⟩
  · intro h1 h2
    simp [applyRandomMuting, h1, h2]
  · intro h
    have hn : ¬ (0 ≤ p ∧ p ≤ 100) := by omega
    simp [applyRandomMuting, hn]

/-- Witness for C8 at percents 50 and 101. -/
theorem clik_C8_witness :
    applyRandomMuting initState (some 50) =
      { initState with randomMuteProbability := ((50 : ℤ) : ℚ) / 100 } ∧
    applyRandomMuting initState (some 101) = initState :=
  ⟨(clik_C8_set_mute initState 50).1 (by decide) (by decide),
   (clik_C8_set_mute initState 101).2.1 (by decide)⟩

/-- C7: while running, the double command sets bpm to
min(300, round(2*bpm)) and the half command to max(1, round(bpm/2)); from
200 double gives 300 and from 2 half gives 1; while stopped both commands
leave the state unchanged. -/
theorem clik_C7_half_double (s : State) :
    (s.isRunning = true →
      (handleKeyD s).bpm = min 300 (jsRoundQ (s.bpm * 2)) ∧
      (handleKeyH s).bpm = max 1 (jsRoundQ (s.bpm / 2))) ∧
    (s.isRunning = true → s.bpm = 200 → (handleKeyD s).bpm = 300) ∧
    (s.isRunning = true → s.bpm = 2 → (handleKeyH s).bpm = 1) ∧
    (s.isRunning = false → handleKeyD s = s ∧ handleKeyH s = s) := by
  refine ⟨?_, ?_, ?_, ?_⟩
  · intro h
    simp [handleKeyD, handleKeyH, h]
  · intro h hb
    have h1 : (handleKeyD s).bpm = min 300 (jsRoundQ (s.bpm * 2)) := by
      simp [handleKeyD, h]
    rw [h1, hb, jsRoundQ_eq_coe ((200 : ℚ) * 2) 400 (by norm_num) (by norm_num)]
    norm_num
  · intro h hb
    have h1 : (handleKeyH s).bpm = max 1 (jsRoundQ (s.bpm / 2)) := by
      simp [handleKeyH, h]
    rw [h1, hb, jsRoundQ_eq_coe ((2 : ℚ) / 2) 1 (by norm_num) (by norm_num)]
    norm_num
  · intro h
    simp [handleKeyD, handleKeyH, h]

/-- Witness for C7 at running states with bpm 200 and 2. -/
theorem clik_C7_witness :
    (handleKeyD { initState with isRunning := true, bpm := 200, intervalId := some 1 }).bpm = 300 ∧
    (handleKeyH { initState with isRunning := true, bpm := 2, intervalId := some 1 }).bpm = 1 :=
  ⟨(clik_C7_half_double _).2.1 rfl rfl, (clik_C7_half_double _).2.2.1 rfl rfl⟩

/-- C6: stop() is a no-op on a stopped state with no installed timer;
otherwise it clears the running flag and nulls the timer handle while
leaving nextNoteTime unchanged; a tick after stop() produces no emission,
and starting then immediately stopping leaves isRunning false. -/
theorem clik_C6_stop (s : State) (now c : ℚ) :
    (s.isRunning = false → s.intervalId = none → stop s = s) ∧
    (stop s).isRunning = false ∧
    (stop s).intervalId = none ∧
    (stop s).nextNoteTime = s.nextNoteTime ∧
    timerLoop now (stop s) = (stop s, []) ∧
    (stop (startMetronome (some c) s)).isRunning = false := by
  have hstop : ∀ r : State,
      (stop r).isRunning = false ∧ (stop r).intervalId = none ∧
      (stop r).nextNoteTime = r.nextNoteTime := by
    intro r
    rcases hopt : r.intervalId with _ | k
    · simp [stop, hopt]
    · simp [stop, hopt]
  refine ⟨?_, (hstop s).1, (hstop s).2.1, (hstop s).2.2, ?_, (hstop _).1⟩
  · intro hr hi
    cases s
    simp_all [stop]
  · simp [timerLoop, (hstop s).1]

/-- Witness for C6 at the initial state. -/
theorem clik_C6_witness :
    stop initState = initState ∧
    (stop (startMetronome (some 0) initState)).isRunning = false :=
  ⟨(clik_C6_stop initState 0 0).1 rfl rfl,
   (clik_C6_stop initState 0 0).2.2.2.2.2⟩

/-- C2 counterexample: from the initial state, start and then tap twice at
the same audio-clock instant 2: the claim says the zero interval is
guarded and ignored with bpm left unchanged (40), but the code computes
60/0 = Infinity, clamps it, and sets bpm to 300 with tapCount reset to 0. -/
theorem clik_C2_counterexample :
    (start (some 0) initState).bpm = 40 ∧
    (handleTapTempo (handleTapTempo (start (some 0) initState) 2) 2).bpm = 300 ∧
    (handleTapTempo (handleTapTempo (start (some 0) initState) 2) 2).tapCount = 0 := by
  have h1 : handleTapTempo (start (some 0) initState) 2 =
      { bpm := 40, isRunning := true, randomMuteProbability := 0,
        lastTapTime := some 2, tapCount := 1, intervalId := some 1,
        nextNoteTime := 0 + 1/20, scheduleAheadTime := 1/10, lookahead := 10 } := by
    simp [start, startMetronome, initState, handleTapTempo]
  have h2 : tapClampBpm (jsDiv 60 ((2 : ℚ) - (some (2 : ℚ)).getD 0)) = 300 := by
    rw [Option.getD_some, show (2 : ℚ) - 2 = 0 from sub_self 2]
    simp [jsDiv, tapClampBpm, jsRoundN, jsMinC, jsMaxC, jsVal]
    norm_num
  rw [h1]
  refine ⟨rfl, ?_, rfl⟩
  have h3 : ∀ r : State, r.isRunning = true → r.tapCount = 1 →
      handleTapTempo r 2 =
        { r with bpm := tapClampBpm (jsDiv 60 (2 - r.lastTapTime.getD 0)),
                 tapCount := 0 } := by
    intro r hr hc
    simp [handleTapTempo, hr, hc]
  rw [h3 _ rfl rfl]
  simpa using h2

/-- C2 amended: a second tap with zero interval does not crash — JS
computes 60/0 = Infinity, whose rounded clamp is the ceiling 300 — so bpm
becomes 300 (not left unchanged, and the pair is not treated as a fresh
first tap) and tapCount resets to 0. -/
theorem clik_C2_zero_interval (s : State) (a : ℚ)
    (hr : s.isRunning = true) (hc : s.tapCount = 1) (ha : s.lastTapTime = some a) :
    (handleTapTempo s a).bpm = 300 ∧ (handleTapTempo s a).tapCount = 0 := by
  simp [handleTapTempo, hr, hc, ha, tapClampBpm, jsDiv, jsRoundN, jsMinC,
    jsMaxC, jsVal, sub_self]
  norm_num

/-- Witness for C2 amended at a concrete running state with a stored anchor. -/
theorem clik_C2_witness :
    (handleTapTempo { initState with isRunning := true, intervalId := some 1, tapCount := 1, lastTapTime := some 2 } 2).bpm = 300 ∧
    (handleTapTempo { initState with isRunning := true, intervalId := some 1, tapCount := 1, lastTapTime := some 2 } 2).tapCount = 0 :=
  clik_C2_zero_interval _ 2 rfl rfl rfl

/-- C3 (code bug): with a null audio context and the metronome running, a
scheduler tick throws a TypeError instead of silently dropping the click
and advancing nextNoteTime, because the while-loop condition of
scheduler() dereferences the null audioContext; the state is reachable on
a browser without Web Audio support, where initAudio() leaves the context
null and start() still calls startMetronome(). -/
theorem clik_C3_null_audio_tick_throws :
    timerLoopE { audioContext := none, audioReady := false }
        (startMetronome none initState) =
      Except.error "TypeError: cannot read currentTime of null" := by
  rfl

/-- C4: while running, a first tap stores the anchor and sets tapCount to
1 without touching bpm; the second tap resets tapCount to 0 and sets
bpm = round(60/interval) clamped to [30,300]; two taps half a second apart
give bpm 120. -/
theorem clik_C4_tap_pair (s : State) (t1 t2 : ℚ)
    (hr : s.isRunning = true) (hc : s.tapCount = 0) :
    (handleTapTempo s t1).tapCount = 1 ∧
    (handleTapTempo s t1).lastTapTime = some t1 ∧
    (handleTapTempo s t1).bpm = s.bpm ∧
    (handleTapTempo (handleTapTempo s t1) t2).tapCount = 0 ∧
    (t2 - t1 ≠ 0 →
      (handleTapTempo (handleTapTempo s t1) t2).bpm =
        max 30 (min 300 (jsRoundQ (60 / (t2 - t1))))) ∧
    (t2 - t1 = 1/2 → (handleTapTempo (handleTapTempo s t1) t2).bpm = 120) := by
  obtain ⟨b, ir, mp, ltt, tc, iid, nnt, sat, la⟩ := s
  simp only at hr hc
  subst hr
  subst hc
  refine ⟨?_, ?_, ?_, ?_, ?_, ?_⟩
  · simp [handleTapTempo]
  · simp [handleTapTempo]
  · simp [handleTapTempo]
  · simp [handleTapTempo]
  · intro h
    simp [handleTapTempo, tapClampBpm, jsDiv, h, jsRoundN, jsMinC, jsMaxC, jsVal]
  · intro h
    have h2 : (handleTapTempo (handleTapTempo
        (State.mk b true mp ltt 0 iid nnt sat la) t1) t2).bpm =
        tapClampBpm (jsDiv 60 (t2 - t1)) := by
      simp [handleTapTempo]
    rw [h2, h, jsDiv, if_neg (by norm_num : ((1 : ℚ)/2) ≠ 0)]
    simp only [tapClampBpm, jsRoundN, jsMinC, jsMaxC, jsVal]
    rw [show (60 : ℚ) / (1/2) = 120 by norm_num,
      jsRoundQ_eq_coe 120 120 (by norm_num) (by norm_num)]
    norm_num

/-- C1: a scheduler tick in a running state emits exactly the beats lying
in the look-ahead window, one playClick call per beat, each timestamped at
the then-current nextNoteTime and advancing it by exactly 60/bpm, with no
duplicate and no skipped beat; in particular when exactly two whole beat
intervals fit below the window limit, exactly the two timestamps
nextNoteTime and nextNoteTime + 60/bpm are emitted. -/
theorem clik_C1_scheduler_catchup (s : State) (now : ℚ)
    (hrun : s.isRunning = true) (hb : 0 < s.bpm) :
    (timerLoop now s).2 =
      (List.range (beatCount s.bpm (now + s.scheduleAheadTime) s.nextNoteTime)).map
        (fun i : ℕ => s.nextNoteTime + (i : ℚ) * (60 / s.bpm)) ∧
    (timerLoop now s).1.nextNoteTime =
      s.nextNoteTime +
        ((beatCount s.bpm (now + s.scheduleAheadTime) s.nextNoteTime : ℕ) : ℚ) *
          (60 / s.bpm) ∧
    (timerLoop now s).2.Nodup ∧
    (s.nextNoteTime + 60 / s.bpm < now + s.scheduleAheadTime →
      now + s.scheduleAheadTime ≤ s.nextNoteTime + 2 * (60 / s.bpm) →
      (timerLoop now s).2 = [s.nextNoteTime, s.nextNoteTime + 60 / s.bpm]) := by
  have htl : timerLoop now s = scheduler now s := by simp [timerLoop, hrun]
  have h1 : (timerLoop now s).2 =
      (List.range (beatCount s.bpm (now + s.scheduleAheadTime) s.nextNoteTime)).map
        (fun i : ℕ => s.nextNoteTime + (i : ℚ) * (60 / s.bpm)) := by
    rw [htl]
    exact schedulerTimes_closed s.bpm (now + s.scheduleAheadTime) hb _ _ rfl
  have h2 : (timerLoop now s).1.nextNoteTime =
      s.nextNoteTime +
        ((beatCount s.bpm (now + s.scheduleAheadTime) s.nextNoteTime : ℕ) : ℚ) *
          (60 / s.bpm) := by
    rw [htl]
    exact schedulerFinal_closed s.bpm (now + s.scheduleAheadTime) hb _ _ rfl
  have hinj : Function.Injective
      (fun i : ℕ => s.nextNoteTime + (i : ℚ) * (60 / s.bpm)) := by
    intro x y hxy
    simp only at hxy
    have hstep : (0 : ℚ) < 60 / s.bpm := div_pos (by norm_num) hb
    have h3 : (x : ℚ) * (60 / s.bpm) = (y : ℚ) * (60 / s.bpm) := by linarith
    have h4 : (x : ℚ) = (y : ℚ) := mul_right_cancel₀ (ne_of_gt hstep) h3
    exact_mod_cast h4
  refine ⟨h1, h2, ?_, ?_⟩
  · rw [h1]
    exact List.Nodup.map hinj (List.nodup_range _)
  · intro hA hB
    have hbne : s.bpm ≠ 0 := ne_of_gt hb
    have hp : (0 : ℚ) < s.bpm / 60 := by positivity
    have hone : (60 / s.bpm) * (s.bpm / 60) = 1 := by field_simp
    have hx1 : (1 : ℚ) <
        (now + s.scheduleAheadTime - s.nextNoteTime) * (s.bpm / 60) := by
      have hs : 60 / s.bpm < now + s.scheduleAheadTime - s.nextNoteTime := by
        linarith
      have := mul_lt_mul_of_pos_right hs hp
      linarith
    have hx2 : (now + s.scheduleAheadTime - s.nextNoteTime) * (s.bpm / 60) ≤ 2 := by
      have hs : now + s.scheduleAheadTime - s.nextNoteTime ≤ 2 * (60 / s.bpm) := by
        linarith
      have := mul_le_mul_of_nonneg_right hs (le_of_lt hp)
      have he : (2 * (60 / s.bpm)) * (s.bpm / 60) = 2 := by field_simp
      linarith
    have hceil :
        ⌈(now + s.scheduleAheadTime - s.nextNoteTime) * (s.bpm / 60)⌉ = 2 := by
      rw [Int.ceil_eq_iff]
      constructor
      · push_cast
        linarith
      · push_cast
        linarith
    have hcount : beatCount s.bpm (now + s.scheduleAheadTime) s.nextNoteTime = 2 := by
      simp only [beatCount, hceil]
      rfl
    rw [h1, hcount]
    simp [List.range_succ]

/-- Witness for C1: a running state at bpm 60 with nextNoteTime 0, polled
at audio-clock time 1, emits exactly the two due beats 0 and 1. -/
theorem clik_C1_witness :
    (timerLoop 1 { initState with isRunning := true, bpm := 60, intervalId := some 1 }).2 = [0, 0 + 60 / 60] := by
  have h := (clik_C1_scheduler_catchup { initState with isRunning := true, bpm := 60, intervalId := some 1 } 1 rfl (by norm_num)).2.2.2 (by norm_num [initState]) (by norm_num [initState])
  simpa [initState] using h

/-- Witness for C4: two taps half a second apart from a running state. -/
theorem clik_C4_witness :
    (handleTapTempo (handleTapTempo { initState with isRunning := true, intervalId := some 1 } 1) (3/2)).bpm = 120 :=
  (clik_C4_tap_pair { initState with isRunning := true, intervalId := some 1 } 1 (3/2) rfl rfl).2.2.2.2.2 (by norm_num)

theorem tapClampBpm_bounds (x : JSNum) :
    30 ≤ tapClampBpm x ∧ tapClampBpm x ≤ 300 := by
  cases x with
  | posInf =>
    simp only [tapClampBpm, jsRoundN, jsMinC, jsMaxC, jsVal]
    norm_num
  | fin q =>
    simp only [tapClampBpm, jsRoundN, jsMinC, jsMaxC, jsVal]
    exact ⟨le_max_left _ _, max_le (by norm_num) (min_le_left _ _)⟩

theorem jsRoundQ_le_add_half (q : ℚ) : jsRoundQ q ≤ q + 1/2 := by
  rw [jsRoundQ_eq_round, round_eq]
  exact_mod_cast Int.floor_le (q + 1/2)

theorem sub_half_lt_jsRoundQ (q : ℚ) : q - 1/2 < jsRoundQ q := by
  rw [jsRoundQ_eq_round, round_eq]
  have h := Int.sub_one_lt_floor (q + 1/2)
  have h2 : ((⌊q + 1/2⌋ : ℤ) : ℚ) = ((round q : ℤ) : ℚ) := by rw [round_eq]
  push_cast at h
  linarith [h2 ▸ h]

theorem inv_applyOp (s : State) (o : Op) (h : Inv s) : Inv (applyOp s o) := by
  obtain ⟨b, ir, mp, ltt, tc, iid, nnt, sat, la⟩ := s
  obtain ⟨h1, h2, h3, h4, h5, h6⟩ := h
  simp only at h1 h2 h3 h4 h5 h6
  cases o with
  | opStart a =>
    cases ir <;> rcases a with _ | c <;>
      simp_all [applyOp, start, startMetronome, Inv]
  | opStop =>
    rcases iid with _ | k <;> simp_all [applyOp, stop, Inv]
  | opTick a =>
    rcases a with _ | c
    · exact ⟨h1, h2, h3, h4, h5, h6⟩
    · cases ir <;> simp_all [applyOp, timerLoop, scheduler, Inv]
  | opHalf =>
    cases ir
    · simp_all [applyOp, handleKeyH, Inv]
    · simp only [applyOp, handleKeyH, Inv, if_pos]
      refine ⟨le_max_left _ _, ?_, h3, h4, h5, h6⟩
      apply max_le (by norm_num)
      have := jsRoundQ_le_add_half (b / 2)
      linarith
  | opDouble =>
    cases ir
    · simp_all [applyOp, handleKeyD, Inv]
    · simp only [applyOp, handleKeyD, Inv, if_pos]
      refine ⟨?_, min_le_left _ _, h3, h4, h5, h6⟩
      apply le_min (by norm_num)
      have := sub_half_lt_jsRoundQ (b * 2)
      linarith
  | opSetMute v =>
    rcases v with _ | p
    · exact ⟨h1, h2, h3, h4, h5, h6⟩
    · by_cases hp : 0 ≤ p ∧ p ≤ 100
      · simp only [applyOp, applyRandomMuting, if_pos hp, Inv]
        refine ⟨h1, h2, ?_, ?_, h5, h6⟩
        · exact div_nonneg (by exact_mod_cast hp.1) (by norm_num)
        · have hp2 : (p : ℚ) ≤ 100 := by exact_mod_cast hp.2
          rw [div_le_one (by norm_num)]
          linarith
      · simp only [applyOp, applyRandomMuting, if_neg hp]
        exact ⟨h1, h2, h3, h4, h5, h6⟩
  | opTap now =>
    cases ir
    · simp_all [applyOp, handleTapTempo, Inv]
    · rcases Nat.lt_or_ge tc 1 with htc | htc
      · have htc0 : tc = 0 := by omega
        subst htc0
        simp only [applyOp, handleTapTempo, Inv]
        simp
        exact ⟨h1, h2, h3, h4⟩
      · have htc1 : tc = 1 := by omega
        subst htc1
        obtain ⟨hL, hU⟩ := tapClampBpm_bounds (jsDiv 60 (now - ltt.getD 0))
        simp only [applyOp, handleTapTempo, Inv]
        norm_num
        exact ⟨by linarith, by linarith, h3, h4⟩

theorem inv_run (ops : List Op) : ∀ s : State, Inv s → Inv (run s ops) := by
  induction ops with
  | nil =>
    intro s h
    exact h
  | cons o rest ih =>
    intro s h
    rw [run, List.foldl_cons]
    exact ih (applyOp s o) (inv_applyOp s o h)

theorem inv_initState : Inv initState := by
  refine ⟨by norm_num [initState], by norm_num [initState],
    by norm_num [initState], by norm_num [initState], ?_, by norm_num [initState]⟩
  intro h
  simp [initState] at h

/-- C9 amended: in every state reachable from the initial state by any
sequence of operations, bpm lies in [1,300], the mute probability lies in
[0,1], and the tap anchor is present whenever tapCount is 1 (tapCount
itself never exceeds 1); however the converse direction of the anchor
clause fails: the anchor may remain set after a completed pair has reset
tapCount to 0, since the code never clears lastTapTime. -/
theorem clik_C9_invariant (ops : List Op) : Inv (run initState ops) :=
  inv_run ops initState inv_initState

/-- Witness for C9 at a concrete short operation sequence. -/
theorem clik_C9_witness : Inv (run initState [Op.opStart (some 0), Op.opTap 1]) :=
  clik_C9_invariant [Op.opStart (some 0), Op.opTap 1]

/-- C9 counterexample: start, then tap at times 1 and 3/2: the pair
completes, tapCount is back to 0, yet lastTapTime still holds the anchor
1 — so the anchor is not set only while tapCount equals 1. -/
theorem clik_C9_counterexample :
    (run initState [Op.opStart (some 0), Op.opTap 1, Op.opTap (3/2)]).tapCount = 0 ∧
    (run initState [Op.opStart (some 0), Op.opTap 1, Op.opTap (3/2)]).lastTapTime = some 1 := by
  constructor <;>
    simp [run, applyOp, start, startMetronome, initState, handleTapTempo]

end Clik
